import Mathlib

/-!
Shallow embedding of contrib/seeds/qtc-seeder.py (the QTC post-quantum
network seeder) and theorems checking the specification claims about it.

Bytes are modelled as List Nat (each entry a byte value), Python
exceptions as Except / Option, and the network environment as an oracle
mapping a (host, port) pair to the outcome of the socket interaction.
-/

namespace QTCSeeder

/-- Protocol constant QTC_MAGIC_BYTES, the four bytes F9 BE B4 D9. -/
def QTC_MAGIC_BYTES : List Nat := [0xF9, 0xBE, 0xB4, 0xD9]

/-- Protocol constant QTC_VERSION = 1. -/
def QTC_VERSION : Nat := 1

/-- Protocol constant DEFAULT_PORT = 8333. -/
def DEFAULT_PORT : Nat := 8333

/-- Embedding of struct.pack with format "<H" (unsigned 16-bit
little-endian): two bytes, low byte first; raises (none) when the value
does not fit in 16 bits. -/
def packU16LE (n : Nat) : Option (List Nat) :=
  if n < 65536 then some [n % 256, n / 256] else none

/-- Embedding of QTCPQSeeder.create_pq_handshake.  The argument none
models the Python default server_pk = None, in which case a dummy
all-zero ciphertext of 1568 bytes (Kyber1024 size) is substituted.
The message is magic, version, ciphertext length, ciphertext, then 32
zero padding bytes. -/
def create_pq_handshake (server_pk : Option (List Nat)) : Option (List Nat) :=
  let pk : List Nat :=
    match server_pk with
    | none => List.replicate 1568 0
    | some p => p
  match packU16LE QTC_VERSION, packU16LE pk.length with
  | some v, some l => some (QTC_MAGIC_BYTES ++ v ++ l ++ pk ++ List.replicate 32 0)
  | _, _ => none

/-- Embedding of the response-classification logic inside
QTCPQSeeder.test_pq_handshake: if len(response) >= 7 and the first four
bytes equal the magic and byte 6 equals 0 the response is accepted.
The value none models an uncaught indexing error (it never occurs: the
length guard protects the index).  Any other buffer yields some false. -/
def is_accepting_response (r : List Nat) : Option Bool :=
  if 7 ≤ r.length then
    match r[6]? with
    | some s => some (decide (r.take 4 = QTC_MAGIC_BYTES) && decide (s = 0))
    | none => none
  else some false

/-- Outcome of the socket interaction with one peer, seen from
test_pq_handshake: the connect call raises, the send raises, the recv
raises or times out, or the recv returns a buffer. -/
inductive NetOutcome
  | connectFail
  | sendFail
  | recvFail
  | response (buf : List Nat)

/-- What one call of test_pq_handshake returns: the boolean result and
whether sock.close() was executed before the return. -/
structure ProbeReturn where
  result : Bool
  sockClosed : Bool
deriving DecidableEq, Repr

/-- Embedding of QTCPQSeeder.test_pq_handshake.  Matching the source: on
an accepted response the function returns True immediately, without
reaching the sock.close() call; on a rejected response it falls through
to sock.close() and returns False; on any exception the handler returns
False, also without closing the socket. -/
def test_pq_handshake (net : NetOutcome) : ProbeReturn :=
  match net with
  | NetOutcome.connectFail => ⟨false, false⟩
  | NetOutcome.sendFail => ⟨false, false⟩
  | NetOutcome.recvFail => ⟨false, false⟩
  | NetOutcome.response buf =>
    match is_accepting_response buf with
    | some true => ⟨true, false⟩
    | some false => ⟨false, true⟩
    | none => ⟨false, false⟩

/-- Embedding of the Python rsplit of a character list at the last colon
with maxsplit 1: some (before, after) when a colon exists, none when the
string has no colon (in which case the two-variable unpacking in the
source raises ValueError). -/
def rsplitColon1 : List Char → Option (List Char × List Char)
  | [] => none
  | c :: rest =>
    match rsplitColon1 rest with
    | some (pre, post) => some (c :: pre, post)
    | none => if c = ':' then some ([], rest) else none

/-- Embedding of int(s) on the port substring, restricted to nonneg
decimal numerals.  The Python int() also accepts signs and surrounding
whitespace; such ports would fail later at the connect stage with the
same observable outcome (exception caught, no confirmation). -/
def parseDecimal (cs : List Char) : Option Nat :=
  if cs = [] then none
  else if cs.all Char.isDigit then
    some (cs.foldl (fun n c => n * 10 + (c.toNat - 48)) 0)
  else none

/-- Embedding of the address-parsing prefix of QTCPQSeeder.crawl_peer:
host, port = peer_addr.rsplit with one split at a colon, then
port = int(port).  none models a raised ValueError. -/
def parse_addr (s : String) : Option (String × Nat) :=
  match rsplitColon1 s.data with
  | none => none
  | some (h, p) =>
    match parseDecimal p with
    | none => none
    | some port => some (String.mk h, port)

/-- Confirmed peer record, the dictionary appended to good_peers by
QTCPQSeeder.crawl_peer. -/
structure PeerInfo where
  addr : String
  host : String
  port : Nat
  pq_capable : Bool
  last_seen : Nat
  success_count : Nat
deriving DecidableEq, Repr

/-- Body of QTCPQSeeder.crawl_peer up to its except handler, returning
the records it appends to good_peers (never more than one).  The error
value models an exception raised inside the body, e.g. by address
parsing.  The net oracle gives each (host, port) its socket outcome. -/
def crawl_peer_body (net : String → Nat → NetOutcome) (now : Nat)
    (peer_addr : String) : Except Unit (List PeerInfo) :=
  match parse_addr peer_addr with
  | none => Except.error ()
  | some (host, port) =>
    Except.ok (if (test_pq_handshake (net host port)).result then
      [⟨peer_addr, host, port, true, now, 1⟩]
    else [])

/-- Embedding of QTCPQSeeder.crawl_peer: the except handler catches any
exception from the body, logs it, and appends nothing. -/
def crawl_peer (net : String → Nat → NetOutcome) (now : Nat)
    (peer_addr : String) : List PeerInfo :=
  match crawl_peer_body net now peer_addr with
  | Except.ok l => l
  | Except.error _ => []

example : parse_addr "h1:99" = some ("h1", 99) := by decide

example : parse_addr "localhost" = none := by decide

example : parse_addr "a:b:12" = some ("a:b", 12) := by decide

example : crawl_peer (fun _ _ => NetOutcome.response (QTC_MAGIC_BYTES ++ [1, 0, 0])) 3
    "h1:99" = [⟨"h1:99", "h1", 99, true, 3, 1⟩] := by decide

/-- Embedding of insertion into the Python set known_peers.  The set is
modelled as a duplicate-free list; insertion keeps an element that is
already present and appends a new one.  (A Python set is unordered;
iteration order is irrelevant to every claim, so insertion order is as
good a representative as any.) -/
def setAdd (s : List String) (a : String) : List String :=
  if a ∈ s then s else s ++ [a]

/-- The hardcoded seed hostnames of QTCPQSeeder.add_seed_nodes. -/
def SEED_HOSTS : List String :=
  [("seed1.qtc.org"), ("seed2.qtc.org"), ("seed3.qtc.org"), ("127.0.0.1")]

/-- Embedding of QTCPQSeeder.add_seed_nodes: each seed hostname with
DEFAULT_PORT appended is inserted into known_peers. -/
def add_seed_nodes (known : List String) : List String :=
  SEED_HOSTS.foldl (fun s n => setAdd s (n ++ (":") ++ Nat.repr DEFAULT_PORT)) known

/-- Static configuration and environment of one crawl: max_peers (an
integer, as the argparse option allows nonpositive values), the network
oracle, and the current time used for last_seen stamps. -/
structure Config where
  maxPeers : Int
  net : String → Nat → NetOutcome
  now : Nat

/-- State of one pass of QTCPQSeeder.crawl_network: pending is the part
of list(known_peers) not yet examined by the submission loop, inflight
the submitted probes not yet completed, submitted the history of every
executor.submit call (the futures list), and good the shared good_peers
list. -/
structure CrawlState where
  pending : List String
  inflight : List String
  submitted : List String
  good : List PeerInfo

/-- Small-step semantics of one crawl pass.  submit: the loop checks
len(good_peers) < max_peers and submits the next frontier address
(executor.submit only queues, so any number of submissions can precede
the first completion regardless of the worker count).  capstop: the
check fails and the loop breaks, dropping the rest of the frontier.
complete: an in-flight crawl_peer call finishes and appends its records
to good_peers unconditionally — the source has no cap or presence check
at this point. -/
inductive Step (cfg : Config) : CrawlState → CrawlState → Prop
  | submit (s : CrawlState) (a : String) (rest : List String)
      (hp : s.pending = a :: rest)
      (hcap : (s.good.length : Int) < cfg.maxPeers) :
      Step cfg s ⟨rest, a :: s.inflight, a :: s.submitted, s.good⟩
  | capstop (s : CrawlState)
      (hcap : cfg.maxPeers ≤ (s.good.length : Int))
      (hne : s.pending ≠ []) :
      Step cfg s ⟨[], s.inflight, s.submitted, s.good⟩
  | complete (s : CrawlState) (a : String)
      (ha : a ∈ s.inflight) :
      Step cfg s ⟨s.pending, s.inflight.erase a, s.submitted,
        s.good ++ crawl_peer cfg.net cfg.now a⟩

/-- Reachability through interleaved submission and completion steps. -/
abbrev Reach (cfg : Config) : CrawlState → CrawlState → Prop :=
  Relation.ReflTransGen (Step cfg)

/-- A pass is complete when the submission loop has consumed or dropped
the whole frontier and concurrent.futures.as_completed has drained every
submitted probe. -/
abbrev PassComplete (s : CrawlState) : Prop := s.pending = [] ∧ s.inflight = []

/-- One particular legal schedule of a pass: each frontier address is
submitted and its probe completes before the loop looks at the next
address.  Used to produce concrete executions of crawl_network. -/
def seqRun (cfg : Config) : List String → CrawlState → CrawlState
  | [], s => s
  | a :: rest, s =>
    if (s.good.length : Int) < cfg.maxPeers then
      seqRun cfg rest
        ⟨rest, [], a :: s.submitted, s.good ++ crawl_peer cfg.net cfg.now a⟩
    else ⟨[], s.inflight, s.submitted, s.good⟩

/-- Process-lifetime registry state: the known_peers set and the
good_peers list, both of which persist across passes. -/
structure RegState where
  known : List String
  good : List PeerInfo

/-- Initial pass state built by crawl_network: the frontier is
list(known_peers), nothing submitted yet, good_peers carried over. -/
def passInit (r : RegState) : CrawlState := ⟨r.known, [], [], r.good⟩

/-- Registry reachability across whole passes, as iterated by
QTCPQSeeder.run_continuous: each pass first runs add_seed_nodes, then
any complete Step-execution of crawl_network over the seeded frontier,
and the resulting good_peers list is carried into the next pass. -/
inductive RunReach (cfg : Config) : RegState → RegState → Prop
  | refl (r : RegState) : RunReach cfg r r
  | pass {r1 r2 : RegState} (s : CrawlState)
      (h : RunReach cfg r1 r2)
      (hs : Reach cfg (passInit ⟨add_seed_nodes r2.known, r2.good⟩) s)
      (hp : s.pending = [])
      (hi : s.inflight = []) :
      RunReach cfg r1 ⟨add_seed_nodes r2.known, s.good⟩

/-- One pass of crawl_network under the sequential schedule seqRun. -/
def crawl_network_seq (cfg : Config) (r : RegState) : RegState :=
  let known := add_seed_nodes r.known
  ⟨known, (seqRun cfg known (passInit ⟨known, r.good⟩)).good⟩

/-- Iterated sequential passes, as run_continuous repeats them. -/
def runPasses (cfg : Config) : Nat → RegState → RegState
  | 0, r => r
  | n + 1, r => crawl_network_seq cfg (runPasses cfg n r)

/-- Embedding of QTCPQSeeder.save_peers: the writeOk flag tells whether
opening and writing the output file succeeds; on success the number of
peers written is returned, on failure the OSError propagates (the
function has no handler). -/
def save_peers (writeOk : Bool) (good : List PeerInfo) : Except Unit Nat :=
  if writeOk then Except.ok good.length else Except.error ()

/-- Embedding of QTCPQSeeder.run_continuous observed for fuel
iterations of its infinite while-True loop, under the sequential pass
schedule.  The loop body is crawl_network then save_peers then sleep;
run_continuous installs no exception handler, so a save failure
propagates out of the loop.  ok (r, p) means p passes ran and the loop
is still going; error p means the loop terminated by an escaping
exception after its p-th pass. -/
def run_continuous_fuel (cfg : Config) (writeOk : Bool) :
    Nat → RegState → Nat → Except Nat (RegState × Nat)
  | 0, r, passes => Except.ok (r, passes)
  | n + 1, r, passes =>
    let r' := crawl_network_seq cfg r
    match save_peers writeOk r'.good with
    | Except.error _ => Except.error (passes + 1)
    | Except.ok _ => run_continuous_fuel cfg writeOk n r' (passes + 1)

/-- Occurrences of an address among the confirmed records. -/
def addrCount (l : List PeerInfo) (a : String) : Nat :=
  (l.map PeerInfo.addr).count a

example : add_seed_nodes [] =
    [("seed1.qtc.org:8333"), ("seed2.qtc.org:8333"),
     ("seed3.qtc.org:8333"), ("127.0.0.1:8333")] := by decide

example : add_seed_nodes (add_seed_nodes []) = add_seed_nodes [] := by decide

/-- crawl_peer appends at most one record per call. -/
lemma crawl_peer_length_le (net : String → Nat → NetOutcome) (now : Nat) (a : String) :
    (crawl_peer net now a).length ≤ 1 := by
  unfold crawl_peer crawl_peer_body
  cases h : parse_addr a with
  | none => simp
  | some p =>
    obtain ⟨host, port⟩ := p
    by_cases hc : (test_pq_handshake (net host port)).result = true <;> simp [hc]

/-- Every record produced by crawl_peer carries the probed address. -/
lemma crawl_peer_addr {net : String → Nat → NetOutcome} {now : Nat} {a : String}
    {r : PeerInfo} (h : r ∈ crawl_peer net now a) : r.addr = a := by
  unfold crawl_peer crawl_peer_body at h
  cases hp : parse_addr a with
  | none => simp [hp] at h
  | some p =>
    obtain ⟨host, port⟩ := p
    rw [hp] at h
    by_cases hc : (test_pq_handshake (net host port)).result = true
    · simp [hc] at h
      subst h
      rfl
    · simp [hc] at h

/-- addrCount of the records of one crawl_peer call, for any address. -/
lemma addrCount_crawl_peer (net : String → Nat → NetOutcome) (now : Nat)
    (a x : String) :
    addrCount (crawl_peer net now a) x ≤ if x = a then 1 else 0 := by
  unfold addrCount crawl_peer crawl_peer_body
  cases hp : parse_addr a with
  | none => simp
  | some p =>
    obtain ⟨host, port⟩ := p
    by_cases hc : (test_pq_handshake (net host port)).result = true <;>
      by_cases hx : x = a <;> simp [hc, hx, List.count_cons]

/-- addrCount distributes over append. -/
lemma addrCount_append (l m : List PeerInfo) (x : String) :
    addrCount (l ++ m) x = addrCount l x + addrCount m x := by
  simp [addrCount]

/-- good_peers only ever grows along a pass. -/
lemma reach_good_mono {cfg : Config} {s t : CrawlState} (h : Reach cfg s t) :
    s.good.length ≤ t.good.length := by
  induction h with
  | refl => exact le_rfl
  | @tail b c h1 h2 ih =>
    cases h2 with
    | submit a rest hp hcap => exact ih
    | capstop hcap hne => exact ih
    | complete a ha =>
      refine le_trans ih ?_
      simp

/-- The total of confirmed, in-flight and pending entries never grows:
each submission moves one address, each completion confirms at most one
record. -/
lemma reach_total_le {cfg : Config} {s t : CrawlState} (h : Reach cfg s t) :
    t.good.length + t.inflight.length + t.pending.length ≤
      s.good.length + s.inflight.length + s.pending.length := by
  induction h with
  | refl => exact le_rfl
  | @tail b c h1 h2 ih =>
    refine le_trans ?_ ih
    cases h2 with
    | submit a rest hp hcap =>
      simp only [hp, List.length_cons]
      omega
    | capstop hcap hne =>
      simp only [List.length_nil]
      omega
    | complete a ha =>
      have hl := crawl_peer_length_le cfg.net cfg.now a
      have he := List.length_erase_of_mem ha
      have hm : 1 ≤ b.inflight.length := by
        cases hb : b.inflight with
        | nil => rw [hb] at ha; exact absurd ha (List.not_mem_nil a)
        | cons y ys => simp [hb]
      simp only [List.length_append]
      omega

/-- Along a pass, the number of submissions of an address plus its
remaining pending occurrences never grows. -/
lemma reach_submitted_bound {cfg : Config} {s t : CrawlState} (h : Reach cfg s t)
    (x : String) :
    t.submitted.count x + t.pending.count x ≤
      s.submitted.count x + s.pending.count x := by
  induction h with
  | refl => exact le_rfl
  | @tail b c h1 h2 ih =>
    refine le_trans ?_ ih
    cases h2 with
    | submit a rest hp hcap =>
      by_cases hxa : x = a
      all_goals simp [hp, List.count_cons, hxa]
      all_goals omega
    | capstop hcap hne => simp
    | complete a ha => simp

/-- Along a pass, the occurrences of an address among confirmed records,
in-flight probes and pending frontier entries never grow in total. -/
lemma reach_addr_bound {cfg : Config} {s t : CrawlState} (h : Reach cfg s t)
    (x : String) :
    addrCount t.good x + t.inflight.count x + t.pending.count x ≤
      addrCount s.good x + s.inflight.count x + s.pending.count x := by
  induction h with
  | refl => exact le_rfl
  | @tail b c h1 h2 ih =>
    refine le_trans ?_ ih
    cases h2 with
    | submit a rest hp hcap =>
      by_cases hxa : x = a
      all_goals simp [hp, List.count_cons, hxa]
      all_goals omega
    | capstop hcap hne => simp
    | complete a ha =>
      have hcp := addrCount_crawl_peer cfg.net cfg.now a x
      simp only [addrCount_append]
      by_cases hx : x = a
      · subst hx
        have he : (b.inflight.erase x).count x = b.inflight.count x - 1 :=
          List.count_erase_self x b.inflight
        have hm : 1 ≤ b.inflight.count x := by
          have := List.count_pos_iff.mpr ha
          omega
        rw [if_pos rfl] at hcp
        simp only [he]
        omega
      · have he : (b.inflight.erase a).count x = b.inflight.count x :=
          List.count_erase_of_ne hx b.inflight
        rw [if_neg hx] at hcp
        simp only [he]
        omega

/-- The sequential schedule is a legal execution: running seqRun from a
state whose frontier is the list argument and with no probe in flight is
Step-reachable, and it ends with the pass complete. -/
lemma seqRun_reach (cfg : Config) : ∀ (l : List String) (s : CrawlState),
    s.pending = l → s.inflight = [] →
    Reach cfg s (seqRun cfg l s) ∧
      (seqRun cfg l s).pending = [] ∧ (seqRun cfg l s).inflight = [] := by
  intro l
  induction l with
  | nil =>
    intro s hp hi
    refine ⟨Relation.ReflTransGen.refl, ?_, hi⟩
    simpa [seqRun] using hp
  | cons a rest ih =>
    intro s hp hi
    by_cases hc : (s.good.length : Int) < cfg.maxPeers
    · have hstep1 : Step cfg s ⟨rest, a :: s.inflight, a :: s.submitted, s.good⟩ :=
        Step.submit s a rest hp hc
      have hmem : a ∈ a :: s.inflight := List.mem_cons_self a s.inflight
      have hstep2 : Step cfg ⟨rest, a :: s.inflight, a :: s.submitted, s.good⟩
          ⟨rest, (a :: s.inflight).erase a, a :: s.submitted,
            s.good ++ crawl_peer cfg.net cfg.now a⟩ :=
        Step.complete ⟨rest, a :: s.inflight, a :: s.submitted, s.good⟩ a hmem
      have herase : (a :: s.inflight).erase a = [] := by
        rw [hi]
        simp
      rw [herase] at hstep2
      have hnext := ih ⟨rest, [], a :: s.submitted,
        s.good ++ crawl_peer cfg.net cfg.now a⟩ rfl rfl
      have hrun : seqRun cfg (a :: rest) s =
          seqRun cfg rest ⟨rest, [], a :: s.submitted,
            s.good ++ crawl_peer cfg.net cfg.now a⟩ := by
        rw [seqRun, if_pos hc]
      rw [hrun]
      exact ⟨Relation.ReflTransGen.trans
        (Relation.ReflTransGen.tail (Relation.ReflTransGen.single hstep1) hstep2)
        hnext.1, hnext.2⟩
    · have hcap : cfg.maxPeers ≤ (s.good.length : Int) := not_lt.mp hc
      have hne : s.pending ≠ [] := by
        rw [hp]
        simp
      have hrun : seqRun cfg (a :: rest) s = ⟨[], s.inflight, s.submitted, s.good⟩ := by
        rw [seqRun, if_neg hc]
      rw [hrun]
      exact ⟨Relation.ReflTransGen.single (Step.capstop s hcap hne), rfl, hi⟩

/-- Every iterate of the sequential pass is registry-reachable. -/
lemma runPasses_runReach (cfg : Config) : ∀ (n : Nat) (r : RegState),
    RunReach cfg r (runPasses cfg n r) := by
  intro n
  induction n with
  | zero => intro r; exact RunReach.refl r
  | succ m ih =>
    intro r
    have hseq := seqRun_reach cfg (add_seed_nodes (runPasses cfg m r).known)
      (passInit ⟨add_seed_nodes (runPasses cfg m r).known, (runPasses cfg m r).good⟩)
      rfl rfl
    exact RunReach.pass _ (ih r) hseq.1 hseq.2.1 hseq.2.2

/-- good_peers only ever grows across passes. -/
lemma runReach_good_mono {cfg : Config} {r1 r2 : RegState}
    (h : RunReach cfg r1 r2) : r1.good.length ≤ r2.good.length := by
  induction h with
  | refl => exact le_rfl
  | pass s h hs hp hi ih =>
    refine le_trans ih ?_
    exact reach_good_mono hs

/-- Inserting into the known_peers set twice is the same as once. -/
lemma setAdd_idem (s : List String) (a : String) :
    setAdd (setAdd s a) a = setAdd s a := by
  by_cases h : a ∈ s <;> simp [setAdd, h]

/-- Insertion into the known_peers set keeps the list duplicate-free. -/
lemma setAdd_nodup {s : List String} (h : s.Nodup) (a : String) :
    (setAdd s a).Nodup := by
  unfold setAdd
  by_cases hm : a ∈ s
  · simpa [hm]
  · simp only [hm, if_false]
    simp [List.nodup_append, h, hm]

/-- add_seed_nodes keeps the known_peers list duplicate-free. -/
lemma add_seed_nodes_nodup {s : List String} (h : s.Nodup) :
    (add_seed_nodes s).Nodup := by
  unfold add_seed_nodes
  generalize SEED_HOSTS = hosts
  induction hosts generalizing s with
  | nil => simpa
  | cons x xs ih => exact ih (setAdd_nodup h _)

/-- The classification is total: every buffer yields some boolean, equal
to the decidable acceptance condition. -/
lemma is_accepting_some (buf : List Nat) :
    is_accepting_response buf =
      some (decide (7 ≤ buf.length ∧ buf.take 4 = QTC_MAGIC_BYTES ∧ buf[6]? = some 0)) := by
  unfold is_accepting_response
  by_cases h : 7 ≤ buf.length
  · have h6 : 6 < buf.length := by omega
    have hget : buf[6]? = some buf[6] := List.getElem?_eq_getElem h6
    rw [if_pos h, hget]
    by_cases h4 : buf.take 4 = QTC_MAGIC_BYTES <;> by_cases h0 : buf[6] = 0 <;>
      simp [h, h4, h0, hget]
  · rw [if_neg h]
    simp [h]

/-- The probe result on a received buffer is exactly the decidable
acceptance condition. -/
lemma test_response_result (buf : List Nat) :
    (test_pq_handshake (NetOutcome.response buf)).result =
      decide (7 ≤ buf.length ∧ buf.take 4 = QTC_MAGIC_BYTES ∧ buf[6]? = some 0) := by
  simp only [test_pq_handshake]
  rw [is_accepting_some buf]
  by_cases hP : 7 ≤ buf.length ∧ buf.take 4 = QTC_MAGIC_BYTES ∧ buf[6]? = some 0
  · simp [hP]
  · simp [hP]

/-- C2: for every response buffer, the probe classifies it as capable
iff the buffer length is at least 7, its first 4 bytes equal the magic
constant, and byte 6 equals 0; every other buffer is classified as not
capable, and the check never raises (it always yields a boolean). -/
theorem C2_acceptance_predicate (buf : List Nat) :
    (∃ b, is_accepting_response buf = some b) ∧
    ((test_pq_handshake (NetOutcome.response buf)).result = true ↔
      (7 ≤ buf.length ∧ buf.take 4 = QTC_MAGIC_BYTES ∧ buf[6]? = some 0)) := by
  constructor
  · exact ⟨_, is_accepting_some buf⟩
  · rw [test_response_result buf]
    simp

set_option maxRecDepth 10000 in
/-- The some-ciphertext branch of create_pq_handshake, evaluated. -/
lemma create_some (ct : List Nat) (h : ct.length < 65536) :
    create_pq_handshake (some ct) =
      some (QTC_MAGIC_BYTES ++ [1, 0] ++ [ct.length % 256, ct.length / 256] ++
        ct ++ List.replicate 32 0) := by
  norm_num [create_pq_handshake, packU16LE, QTC_VERSION, h]

set_option maxRecDepth 10000 in
/-- C3: for every ciphertext whose length fits the uint16 length field,
the encoded probe is magic, version 1 as little-endian uint16, the
ciphertext length as little-endian uint16, the ciphertext bytes, then
exactly 32 zero padding bytes; with no ciphertext supplied, the all-zero
1568-byte placeholder is substituted as the ciphertext. -/
theorem C3_probe_layout (ct : List Nat) (h : ct.length < 65536) :
    create_pq_handshake (some ct) =
      some (QTC_MAGIC_BYTES ++ [1, 0] ++ [ct.length % 256, ct.length / 256] ++
        ct ++ List.replicate 32 0) ∧
    create_pq_handshake none = create_pq_handshake (some (List.replicate 1568 0)) ∧
    create_pq_handshake none =
      some (QTC_MAGIC_BYTES ++ [1, 0] ++ [1568 % 256, 1568 / 256] ++
        List.replicate 1568 0 ++ List.replicate 32 0) := by
  refine ⟨create_some ct h, rfl, ?_⟩
  have hr : (List.replicate 1568 (0 : Nat)).length < 65536 := by simp
  have hnone : create_pq_handshake none =
      create_pq_handshake (some (List.replicate 1568 (0 : Nat))) := rfl
  rw [hnone, create_some (List.replicate 1568 0) hr]
  simp

set_option maxRecDepth 10000 in
/-- C3 witness: the layout at the concrete ciphertext 9, 200, 7. -/
theorem C3_probe_layout_witness :
    ([9, 200, 7] : List Nat).length < 65536 ∧
    (create_pq_handshake (some [9, 200, 7]) =
      some (QTC_MAGIC_BYTES ++ [1, 0] ++
        [([9, 200, 7] : List Nat).length % 256, ([9, 200, 7] : List Nat).length / 256] ++
        [9, 200, 7] ++ List.replicate 32 0) ∧
    create_pq_handshake none = create_pq_handshake (some (List.replicate 1568 0)) ∧
    create_pq_handshake none =
      some (QTC_MAGIC_BYTES ++ [1, 0] ++ [1568 % 256, 1568 / 256] ++
        List.replicate 1568 0 ++ List.replicate 32 0)) :=
  ⟨by decide, C3_probe_layout [9, 200, 7] (by decide)⟩

/-- C5 (code bug in the source): on a capable response the probe
returns True without having executed sock.close(), and on a connect
exception the handler returns without closing either; only the rejected
path closes the socket before returning. -/
theorem C5_socket_not_closed :
    (test_pq_handshake (NetOutcome.response (QTC_MAGIC_BYTES ++ [1, 0, 0]))).result = true ∧
    (test_pq_handshake (NetOutcome.response (QTC_MAGIC_BYTES ++ [1, 0, 0]))).sockClosed = false ∧
    (test_pq_handshake (NetOutcome.response [0])).sockClosed = true ∧
    (test_pq_handshake NetOutcome.connectFail).sockClosed = false := by
  decide

/-- C9: the acceptance check inspects only the first 4 bytes and byte 6:
any two long-enough buffers that agree there classify identically, and
the magic followed by an arbitrary version, a zero status byte and
arbitrary trailing bytes is classified as capable. -/
theorem C9_ignored_fields (v4 v5 : Nat) (tail : List Nat) (b1 b2 : List Nat)
    (h1 : 7 ≤ b1.length) (h2 : 7 ≤ b2.length)
    (hm : b1.take 4 = b2.take 4) (hs : b1[6]? = b2[6]?) :
    is_accepting_response b1 = is_accepting_response b2 ∧
    (test_pq_handshake (NetOutcome.response
      (QTC_MAGIC_BYTES ++ v4 :: v5 :: 0 :: tail))).result = true := by
  constructor
  · rw [is_accepting_some, is_accepting_some, hm, hs]
    simp [h1, h2]
  · rw [test_response_result]
    have h4 : QTC_MAGIC_BYTES.length = 4 := rfl
    have hlen : 7 ≤ (QTC_MAGIC_BYTES ++ v4 :: v5 :: 0 :: tail).length := by
      simp only [List.length_append, h4, List.length_cons]
      omega
    have htake : (QTC_MAGIC_BYTES ++ v4 :: v5 :: 0 :: tail).take 4 = QTC_MAGIC_BYTES := rfl
    have hget : (QTC_MAGIC_BYTES ++ v4 :: v5 :: 0 :: tail)[6]? = some 0 := by
      simp [QTC_MAGIC_BYTES]
    simp only [decide_eq_true_eq]
    exact ⟨hlen, htake, hget⟩

/-- C7: a frontier entry whose address cannot be parsed into host and
port raises inside the crawl_peer body, the except handler absorbs the
exception, no confirmation is recorded for that address, and a pass over
that entry still runs to completion with nothing confirmed. -/
theorem C7_malformed_address (net : String → Nat → NetOutcome) (now : Nat) (a : String)
    (h : parse_addr a = none) :
    crawl_peer_body net now a = Except.error () ∧
    crawl_peer net now a = [] ∧
    (seqRun ⟨1000, net, now⟩ [a] ⟨[a], [], [], []⟩).good = [] ∧
    Reach ⟨1000, net, now⟩ ⟨[a], [], [], []⟩
      (seqRun ⟨1000, net, now⟩ [a] ⟨[a], [], [], []⟩) ∧
    PassComplete (seqRun ⟨1000, net, now⟩ [a] ⟨[a], [], [], []⟩) := by
  have hb : crawl_peer_body net now a = Except.error () := by
    unfold crawl_peer_body
    rw [h]
  have hc : crawl_peer net now a = [] := by
    unfold crawl_peer
    rw [hb]
  have hr := seqRun_reach ⟨1000, net, now⟩ [a] ⟨[a], [], [], []⟩ rfl rfl
  have hrun : seqRun ⟨1000, net, now⟩ [a] ⟨[a], [], [], []⟩ =
      ⟨[], [], [a], [] ++ crawl_peer net now a⟩ := by
    simp only [seqRun]
    split
    · rfl
    · rename_i hne
      exact absurd (by decide) hne
  refine ⟨hb, hc, ?_, hr.1, hr.2.1, hr.2.2⟩
  rw [hrun]
  simp [hc]

/-- C7 witness: the malformed frontier entry localhost, which has no
colon, probed against a network refusing every connection. -/
theorem C7_malformed_address_witness :
    parse_addr ("localhost") = none ∧
    (crawl_peer_body (fun _ _ => NetOutcome.connectFail) 0 ("localhost") =
       Except.error () ∧
     crawl_peer (fun _ _ => NetOutcome.connectFail) 0 ("localhost") = [] ∧
     (seqRun ⟨1000, fun _ _ => NetOutcome.connectFail, 0⟩ [("localhost")]
       ⟨[("localhost")], [], [], []⟩).good = [] ∧
     Reach ⟨1000, fun _ _ => NetOutcome.connectFail, 0⟩ ⟨[("localhost")], [], [], []⟩
       (seqRun ⟨1000, fun _ _ => NetOutcome.connectFail, 0⟩ [("localhost")]
         ⟨[("localhost")], [], [], []⟩) ∧
     PassComplete (seqRun ⟨1000, fun _ _ => NetOutcome.connectFail, 0⟩ [("localhost")]
       ⟨[("localhost")], [], [], []⟩)) :=
  ⟨by decide, C7_malformed_address (fun _ _ => NetOutcome.connectFail) 0
    ("localhost") (by decide)⟩

/-- C10: with max_peers configured as zero or negative, the submission
loop of a pass that starts with an empty confirmed set breaks before
submitting anything: no probe is ever dispatched in any reachable state,
the confirmed set stays empty, and a completed pass with both empty is
reachable. -/
theorem C10_nonpositive_cap (cfg : Config) (init t : CrawlState)
    (hm : cfg.maxPeers ≤ 0) (hg : init.good = []) (hi : init.inflight = [])
    (hs : init.submitted = []) (h : Reach cfg init t) :
    (t.submitted = [] ∧ t.good = []) ∧
    ∃ u, Reach cfg init u ∧ PassComplete u ∧ u.good = [] ∧ u.submitted = [] := by
  have key : ∀ v, Reach cfg init v → v.submitted = [] ∧ v.inflight = [] ∧ v.good = [] := by
    intro v hv
    induction hv with
    | refl => exact ⟨hs, hi, hg⟩
    | @tail b c h1 h2 ih =>
      obtain ⟨ihs, ihi, ihg⟩ := ih
      cases h2 with
      | submit a rest hp hcap =>
        exfalso
        rw [ihg] at hcap
        simp at hcap
        omega
      | capstop hcap hne => exact ⟨ihs, ihi, ihg⟩
      | complete a ha =>
        exfalso
        rw [ihi] at ha
        exact absurd ha (List.not_mem_nil a)
  have hkt := key t h
  refine ⟨⟨hkt.1, hkt.2.2⟩, ?_⟩
  by_cases hp : init.pending = []
  · exact ⟨init, Relation.ReflTransGen.refl, ⟨hp, hi⟩, hg, hs⟩
  · refine ⟨⟨[], init.inflight, init.submitted, init.good⟩,
      Relation.ReflTransGen.single (Step.capstop init ?_ hp), ⟨rfl, hi⟩, hg, hs⟩
    rw [hg]
    simpa using hm

/-- A configuration with max_peers zero and a dead network. -/
def cfgZero : Config := ⟨0, fun _ _ => NetOutcome.connectFail, 0⟩

/-- A network where every address answers with an accepting response. -/
def netAll : String → Nat → NetOutcome :=
  fun _ _ => NetOutcome.response (QTC_MAGIC_BYTES ++ [1, 0, 0])

/-- Scenario configuration: max_peers 1, all peers capable. -/
def cfgA : Config := ⟨1, netAll, 0⟩

/-- Scenario frontier of three capable addresses. -/
def initA : CrawlState := ⟨[("h1:1"), ("h2:1"), ("h3:1")], [], [], []⟩

/-- Scenario frontier of four capable addresses. -/
def initB : CrawlState := ⟨[("h1:1"), ("h2:1"), ("h3:1"), ("h4:1")], [], [], []⟩

/-- A legal schedule of the three-address scenario in which the
submission loop queues all three probes before the first one completes
(executor.submit only queues work, so this interleaving is available
whatever the worker count): the pass completes with three confirmed
records despite max_peers = 1. -/
lemma scenarioA_trace :
    ∃ t, Reach cfgA initA t ∧ PassComplete t ∧ t.good.length = 3 := by
  have s1 : Step cfgA initA
      ⟨[("h2:1"), ("h3:1")], [("h1:1")], [("h1:1")], []⟩ :=
    Step.submit initA ("h1:1") [("h2:1"), ("h3:1")] rfl (by decide)
  have s2 : Step cfgA ⟨[("h2:1"), ("h3:1")], [("h1:1")], [("h1:1")], []⟩
      ⟨[("h3:1")], [("h2:1"), ("h1:1")], [("h2:1"), ("h1:1")], []⟩ :=
    Step.submit _ ("h2:1") [("h3:1")] rfl (by decide)
  have s3 : Step cfgA ⟨[("h3:1")], [("h2:1"), ("h1:1")], [("h2:1"), ("h1:1")], []⟩
      ⟨[], [("h3:1"), ("h2:1"), ("h1:1")], [("h3:1"), ("h2:1"), ("h1:1")], []⟩ :=
    Step.submit _ ("h3:1") [] rfl (by decide)
  have s4 : Step cfgA ⟨[], [("h3:1"), ("h2:1"), ("h1:1")], [("h3:1"), ("h2:1"), ("h1:1")], []⟩
      ⟨[], [("h3:1"), ("h2:1")], [("h3:1"), ("h2:1"), ("h1:1")],
        [⟨"h1:1", "h1", 1, true, 0, 1⟩]⟩ :=
    Step.complete _ ("h1:1") (by decide)
  have s5 : Step cfgA ⟨[], [("h3:1"), ("h2:1")], [("h3:1"), ("h2:1"), ("h1:1")],
      [⟨"h1:1", "h1", 1, true, 0, 1⟩]⟩
      ⟨[], [("h3:1")], [("h3:1"), ("h2:1"), ("h1:1")],
        [⟨"h1:1", "h1", 1, true, 0, 1⟩, ⟨"h2:1", "h2", 1, true, 0, 1⟩]⟩ :=
    Step.complete _ ("h2:1") (by decide)
  have s6 : Step cfgA ⟨[], [("h3:1")], [("h3:1"), ("h2:1"), ("h1:1")],
      [⟨"h1:1", "h1", 1, true, 0, 1⟩, ⟨"h2:1", "h2", 1, true, 0, 1⟩]⟩
      ⟨[], [], [("h3:1"), ("h2:1"), ("h1:1")],
        [⟨"h1:1", "h1", 1, true, 0, 1⟩, ⟨"h2:1", "h2", 1, true, 0, 1⟩,
         ⟨"h3:1", "h3", 1, true, 0, 1⟩]⟩ :=
    Step.complete _ ("h3:1") (by decide)
  exact ⟨_, Relation.ReflTransGen.tail (Relation.ReflTransGen.tail
    (Relation.ReflTransGen.tail (Relation.ReflTransGen.tail
      (Relation.ReflTransGen.tail (Relation.ReflTransGen.single s1) s2) s3) s4) s5) s6,
    ⟨rfl, rfl⟩, rfl⟩

/-- The same all-queued-first schedule over four capable addresses:
the pass completes with four confirmed records despite max_peers = 1. -/
lemma scenarioB_trace :
    ∃ t, Reach cfgA initB t ∧ PassComplete t ∧ t.good.length = 4 := by
  have s1 : Step cfgA initB
      ⟨[("h2:1"), ("h3:1"), ("h4:1")], [("h1:1")], [("h1:1")], []⟩ :=
    Step.submit initB ("h1:1") [("h2:1"), ("h3:1"), ("h4:1")] rfl (by decide)
  have s2 : Step cfgA ⟨[("h2:1"), ("h3:1"), ("h4:1")], [("h1:1")], [("h1:1")], []⟩
      ⟨[("h3:1"), ("h4:1")], [("h2:1"), ("h1:1")], [("h2:1"), ("h1:1")], []⟩ :=
    Step.submit _ ("h2:1") [("h3:1"), ("h4:1")] rfl (by decide)
  have s3 : Step cfgA ⟨[("h3:1"), ("h4:1")], [("h2:1"), ("h1:1")], [("h2:1"), ("h1:1")], []⟩
      ⟨[("h4:1")], [("h3:1"), ("h2:1"), ("h1:1")], [("h3:1"), ("h2:1"), ("h1:1")], []⟩ :=
    Step.submit _ ("h3:1") [("h4:1")] rfl (by decide)
  have s4 : Step cfgA
      ⟨[("h4:1")], [("h3:1"), ("h2:1"), ("h1:1")], [("h3:1"), ("h2:1"), ("h1:1")], []⟩
      ⟨[], [("h4:1"), ("h3:1"), ("h2:1"), ("h1:1")],
        [("h4:1"), ("h3:1"), ("h2:1"), ("h1:1")], []⟩ :=
    Step.submit _ ("h4:1") [] rfl (by decide)
  have s5 : Step cfgA ⟨[], [("h4:1"), ("h3:1"), ("h2:1"), ("h1:1")],
      [("h4:1"), ("h3:1"), ("h2:1"), ("h1:1")], []⟩
      ⟨[], [("h4:1"), ("h3:1"), ("h2:1")], [("h4:1"), ("h3:1"), ("h2:1"), ("h1:1")],
        [⟨"h1:1", "h1", 1, true, 0, 1⟩]⟩ :=
    Step.complete _ ("h1:1") (by decide)
  have s6 : Step cfgA ⟨[], [("h4:1"), ("h3:1"), ("h2:1")],
      [("h4:1"), ("h3:1"), ("h2:1"), ("h1:1")], [⟨"h1:1", "h1", 1, true, 0, 1⟩]⟩
      ⟨[], [("h4:1"), ("h3:1")], [("h4:1"), ("h3:1"), ("h2:1"), ("h1:1")],
        [⟨"h1:1", "h1", 1, true, 0, 1⟩, ⟨"h2:1", "h2", 1, true, 0, 1⟩]⟩ :=
    Step.complete _ ("h2:1") (by decide)
  have s7 : Step cfgA ⟨[], [("h4:1"), ("h3:1")], [("h4:1"), ("h3:1"), ("h2:1"), ("h1:1")],
      [⟨"h1:1", "h1", 1, true, 0, 1⟩, ⟨"h2:1", "h2", 1, true, 0, 1⟩]⟩
      ⟨[], [("h4:1")], [("h4:1"), ("h3:1"), ("h2:1"), ("h1:1")],
        [⟨"h1:1", "h1", 1, true, 0, 1⟩, ⟨"h2:1", "h2", 1, true, 0, 1⟩,
         ⟨"h3:1", "h3", 1, true, 0, 1⟩]⟩ :=
    Step.complete _ ("h3:1") (by decide)
  have s8 : Step cfgA ⟨[], [("h4:1")], [("h4:1"), ("h3:1"), ("h2:1"), ("h1:1")],
      [⟨"h1:1", "h1", 1, true, 0, 1⟩, ⟨"h2:1", "h2", 1, true, 0, 1⟩,
       ⟨"h3:1", "h3", 1, true, 0, 1⟩]⟩
      ⟨[], [], [("h4:1"), ("h3:1"), ("h2:1"), ("h1:1")],
        [⟨"h1:1", "h1", 1, true, 0, 1⟩, ⟨"h2:1", "h2", 1, true, 0, 1⟩,
         ⟨"h3:1", "h3", 1, true, 0, 1⟩, ⟨"h4:1", "h4", 1, true, 0, 1⟩]⟩ :=
    Step.complete _ ("h4:1") (by decide)
  exact ⟨_, Relation.ReflTransGen.tail (Relation.ReflTransGen.tail
    (Relation.ReflTransGen.tail (Relation.ReflTransGen.tail
      (Relation.ReflTransGen.tail (Relation.ReflTransGen.tail
        (Relation.ReflTransGen.tail (Relation.ReflTransGen.single s1) s2) s3) s4)
      s5) s6) s7) s8,
    ⟨rfl, rfl⟩, rfl⟩

/-- C1 counterexample: with max_peers 1 and three simultaneously
capable addresses, a legal schedule (all three queued before any probe
completes) finishes the pass with confirmed_count 3, not 1 — there is
no cap check when a successful result is recorded; and with four
capable addresses and concurrency 3, the final count 4 also exceeds the
claimed general bound max_peers + (concurrency_limit - 1) = 3. -/
theorem C1_counterexample :
    (∃ t, Reach cfgA initA t ∧ PassComplete t ∧ ¬ t.good.length = 1) ∧
    (∃ t, Reach cfgA initB t ∧ PassComplete t ∧ 1 + (3 - 1) < t.good.length) := by
  constructor
  · obtain ⟨t, h1, h2, h3⟩ := scenarioA_trace
    refine ⟨t, h1, h2, ?_⟩
    omega
  · obtain ⟨t, h1, h2, h3⟩ := scenarioB_trace
    refine ⟨t, h1, h2, ?_⟩
    omega

/-- C1 amended: crawl_peer records successful results unconditionally,
so in the scenario the pass can finish with confirmed_count 3; the
bound that does hold is structural: in any state reachable within a
pass, the confirmed, in-flight and pending totals never exceed what the
pass started with, so a completed pass confirms at most one new record
per frontier address. -/
theorem C1_cap_amended (cfg : Config) (init t : CrawlState) (h : Reach cfg init t) :
    t.good.length + t.inflight.length + t.pending.length ≤
      init.good.length + init.inflight.length + init.pending.length ∧
    ∃ u, Reach cfgA initA u ∧ PassComplete u ∧ u.good.length = 3 :=
  ⟨reach_total_le h, scenarioA_trace⟩

/-- C1 amended witness: the bound at the scenario start state itself. -/
theorem C1_cap_amended_witness :
    initA.good.length + initA.inflight.length + initA.pending.length ≤
      initA.good.length + initA.inflight.length + initA.pending.length ∧
    ∃ u, Reach cfgA initA u ∧ PassComplete u ∧ u.good.length = 3 :=
  C1_cap_amended cfgA initA initA Relation.ReflTransGen.refl

/-- C8: inserting the same address into the known_peers set twice
leaves a single copy (insertion is idempotent and keeps the frontier
duplicate-free, as does add_seed_nodes), and within one pass over a
duplicate-free frontier any address is submitted to the executor at
most once. -/
theorem C8_seed_idempotent_dedup (s0 : List String) (a : String)
    (cfg : Config) (init t : CrawlState) (x : String)
    (hnod : s0.Nodup) (h : Reach cfg init t)
    (hn : init.pending.Nodup) (hs : init.submitted = []) :
    setAdd (setAdd s0 a) a = setAdd s0 a ∧
    (setAdd s0 a).Nodup ∧
    (add_seed_nodes s0).Nodup ∧
    t.submitted.count x ≤ 1 := by
  refine ⟨setAdd_idem s0 a, setAdd_nodup hnod a, add_seed_nodes_nodup hnod, ?_⟩
  have hb := reach_submitted_bound h x
  rw [hs] at hb
  have hp1 : init.pending.count x ≤ 1 := List.nodup_iff_count_le_one.mp hn x
  simp at hb
  omega

/-- C8 witness: a concrete seed list and the scenario frontier. -/
theorem C8_seed_idempotent_dedup_witness :
    ([("x:1")] : List String).Nodup ∧ initA.pending.Nodup ∧ initA.submitted = [] ∧
    (setAdd (setAdd [("x:1")] ("h9:9")) ("h9:9") = setAdd [("x:1")] ("h9:9") ∧
     (setAdd [("x:1")] ("h9:9")).Nodup ∧
     (add_seed_nodes [("x:1")]).Nodup ∧
     initA.submitted.count ("h1:1") ≤ 1) :=
  ⟨by decide, by decide, rfl,
    C8_seed_idempotent_dedup [("x:1")] ("h9:9") cfgA initA initA ("h1:1")
      (by decide) Relation.ReflTransGen.refl (by decide) rfl⟩

/-- A network where only 127.0.0.1 port 8333 answers acceptingly. -/
def netLocal : String → Nat → NetOutcome :=
  fun h p => if h == ("127.0.0.1") && p == 8333 then
    NetOutcome.response (QTC_MAGIC_BYTES ++ [1, 0, 0])
  else NetOutcome.connectFail

/-- Configuration for continuous-mode runs over netLocal. -/
def cfgLocal : Config := ⟨1000, netLocal, 5⟩

/-- The registry at process start: nothing known, nothing confirmed. -/
def reg0 : RegState := ⟨[], []⟩

/-- C4 counterexample: two continuous-mode passes over a network where
only 127.0.0.1:8333 is capable leave two confirmed records for that one
address — crawl_peer appends a record on every successful probe without
checking whether the address is already confirmed. -/
theorem C4_counterexample :
    RunReach cfgLocal reg0 (runPasses cfgLocal 2 reg0) ∧
    addrCount (runPasses cfgLocal 2 reg0).good ("127.0.0.1:8333") = 2 :=
  ⟨runPasses_runReach cfgLocal 2 reg0, by decide⟩

/-- C4 amended: the confirmed set size never decreases across passes,
and within a single pass started with no probe in flight, a
duplicate-free frontier and an address not yet confirmed, at most one
record is appended for that address; across repeated passes, however,
re-confirmation appends again, so uniqueness holds per pass only. -/
theorem C4_unique_monotone_amended (cfg : Config) (r1 r2 : RegState)
    (init t : CrawlState) (x : String)
    (hrr : RunReach cfg r1 r2) (hre : Reach cfg init t)
    (hi : init.inflight = []) (hn : init.pending.Nodup)
    (hg : addrCount init.good x = 0) :
    r1.good.length ≤ r2.good.length ∧ addrCount t.good x ≤ 1 := by
  refine ⟨runReach_good_mono hrr, ?_⟩
  have hb := reach_addr_bound hre x
  rw [hi, hg] at hb
  have hp1 : init.pending.count x ≤ 1 := List.nodup_iff_count_le_one.mp hn x
  simp at hb
  omega

/-- C4 amended witness: the fresh registry and the scenario pass start. -/
theorem C4_unique_monotone_amended_witness :
    initA.inflight = [] ∧ initA.pending.Nodup ∧
    addrCount initA.good ("h1:1") = 0 ∧
    (reg0.good.length ≤ reg0.good.length ∧ addrCount initA.good ("h1:1") ≤ 1) :=
  ⟨rfl, by decide, by decide,
    C4_unique_monotone_amended cfgLocal reg0 reg0 initA initA ("h1:1")
      (RunReach.refl reg0) Relation.ReflTransGen.refl rfl (by decide) (by decide)⟩

/-- C6 counterexample: in continuous mode with every output write
failing, observing five scheduled iterations of the loop shows it
terminated after the first pass with the write error escaping — the
next scheduled pass never runs. -/
theorem C6_counterexample :
    run_continuous_fuel cfgLocal false 5 reg0 0 = Except.error 1 := rfl

/-- C6 amended: a persistence failure propagates out of run_continuous,
which installs no handler: however much fuel remains, the loop crashes
right after the pass whose save failed and attempts no further pass. -/
theorem C6_persist_failure_amended (cfg : Config) (fuel : Nat) (r : RegState) (p : Nat) :
    run_continuous_fuel cfg false (fuel + 1) r p = Except.error (p + 1) := rfl

/-- C10 witness: the zero-cap configuration over the seeded frontier. -/
theorem C10_nonpositive_cap_witness :
    cfgZero.maxPeers ≤ 0 ∧
    (((passInit ⟨add_seed_nodes [], []⟩).submitted = [] ∧
      (passInit ⟨add_seed_nodes [], []⟩).good = []) ∧
     ∃ u, Reach cfgZero (passInit ⟨add_seed_nodes [], []⟩) u ∧
       PassComplete u ∧ u.good = [] ∧ u.submitted = []) :=
  ⟨by decide, C10_nonpositive_cap cfgZero (passInit ⟨add_seed_nodes [], []⟩)
    (passInit ⟨add_seed_nodes [], []⟩) (by decide) rfl rfl rfl
    Relation.ReflTransGen.refl⟩

/-- C9 witness: concrete version bytes 255 and 99, trailing junk, and
two concrete agreeing buffers. -/
theorem C9_ignored_fields_witness :
    7 ≤ (QTC_MAGIC_BYTES ++ [0, 0, 0] : List Nat).length ∧
    7 ≤ (QTC_MAGIC_BYTES ++ [7, 8, 0, 9] : List Nat).length ∧
    (QTC_MAGIC_BYTES ++ [0, 0, 0] : List Nat).take 4 =
      (QTC_MAGIC_BYTES ++ [7, 8, 0, 9] : List Nat).take 4 ∧
    (QTC_MAGIC_BYTES ++ [0, 0, 0] : List Nat)[6]? =
      (QTC_MAGIC_BYTES ++ [7, 8, 0, 9] : List Nat)[6]? ∧
    (is_accepting_response (QTC_MAGIC_BYTES ++ [0, 0, 0]) =
       is_accepting_response (QTC_MAGIC_BYTES ++ [7, 8, 0, 9]) ∧
     (test_pq_handshake (NetOutcome.response
       (QTC_MAGIC_BYTES ++ 255 :: 99 :: 0 :: [1, 2, 3]))).result = true) :=
  ⟨by decide, by decide, by decide, by decide,
    C9_ignored_fields 255 99 [1, 2, 3] (QTC_MAGIC_BYTES ++ [0, 0, 0])
      (QTC_MAGIC_BYTES ++ [7, 8, 0, 9]) (by decide) (by decide) (by decide) (by decide)⟩

end QTCSeeder
